import Mathlib

/-!
Verification of the streaming tool-execution progress protocol
(Moldable: `prds/streaming-tool-output.prd.md` and the client sketches).

Text (JavaScript strings / Buffers decoded to strings) is modelled as
`List Char`; `String.length` on the JS side corresponds to `List.length`.
-/

/-- JavaScript string contents, modelled as a list of characters. -/
abbrev Str := List Char

/-- Concatenation of a list of strings (JS `join('')`). -/
def concatAll : List Str → Str
  | [] => []
  | c :: cs => c ++ concatAll cs

/-! ## Command Executor: per-channel data handler (`executeCommand`) -/

/-- Per-channel state of `executeCommand`: the accumulator (`stdout` or
`stderr` variable) and the list of chunks passed to `options.onProgress`,
in emission order. -/
structure ExecChannelState where
  acc : Str
  events : List Str
deriving DecidableEq

/-- Initial per-channel state: empty accumulator, no emissions yet. -/
def initChannel : ExecChannelState := ⟨[], []⟩

/-- The `data` handler of `executeCommand` for one channel, from the PRD:
`if (stdout.length + chunk.length <= maxBuffer) { stdout += chunk;
options.onProgress?.(\x7b type, content: chunk \x7d) }` — the chunk is stored
and emitted only when it fits under `maxBuffer`, otherwise nothing happens. -/
def onData (maxBuffer : Nat) (s : ExecChannelState) (chunk : Str) : ExecChannelState :=
  if s.acc.length + chunk.length ≤ maxBuffer then
    { acc := s.acc ++ chunk, events := s.events ++ [chunk] }
  else
    s

/-- Run the `data` handler over a sequence of arriving chunks. -/
def runChunks (maxBuffer : Nat) (s : ExecChannelState) : List Str → ExecChannelState
  | [] => s
  | c :: cs => runChunks maxBuffer (onData maxBuffer s c) cs

/-! ## Client-side progress state (`handleStreamEvent` / `handleToolResult`) -/

/-- `ToolProgressUpdate.type` from the PRD data model. -/
inductive ProgressKind
  | stdout
  | stderr
  | status
deriving DecidableEq

/-- A progress payload: `{ type, content }` (the id and timestamp are carried
by the enclosing stream event). -/
structure ToolProgressUpdate where
  type : ProgressKind
  content : Str
deriving DecidableEq

/-- The stream event union consumed by `handleStreamEvent`.  Only the
`tool-progress` variant carries data the handler acts on; the others are
represented by their tags. -/
inductive StreamEvent
  | textDelta (delta : Str)
  | toolCallStart (toolCallId : Str)
  | toolCallArgDelta (toolCallId : Str) (delta : Str)
  | toolCallArgFinish (toolCallId : Str)
  | toolProgress (toolCallId : Str) (progress : ToolProgressUpdate)
  | toolResult (toolCallId : Str)
deriving DecidableEq

/-- One entry of the `toolProgress` React state:
`{ stdout: string; stderr: string }`. -/
structure ChannelProgress where
  stdout : Str
  stderr : Str
deriving DecidableEq

/-- The `Record<string, { stdout; stderr }>` React state, as a map from
tool-call id to its entry (`none` = key absent). -/
def ToolProgressMap := Str → Option ChannelProgress

/-- The empty record `{}` used to initialise the state. -/
def emptyProgressMap : ToolProgressMap := fun _ => none

/-- `stdout` of the entry for `id`, with the source's `?.stdout || ''`
defaulting. -/
def getStdout (m : ToolProgressMap) (id : Str) : Str :=
  match m id with
  | some p => p.stdout
  | none => []

/-- `stderr` of the entry for `id`, with the source's `?.stderr || ''`
defaulting. -/
def getStderr (m : ToolProgressMap) (id : Str) : Str :=
  match m id with
  | some p => p.stderr
  | none => []

/-- `handleStreamEvent` from the PRD: on a `tool-progress` event, replace the
entry for `event.toolCallId` with its previous channels extended by the
content when the kind matches (`prev[id]?.stdout || ''` plus the content if
`type === 'stdout'`, and likewise for stderr); every other event type, and
every other key of the record, is left unchanged. -/
def handleStreamEvent (prev : ToolProgressMap) : StreamEvent → ToolProgressMap
  | .toolProgress id p => fun k =>
      if k = id then
        some
          { stdout := getStdout prev id ++ (if p.type = .stdout then p.content else []),
            stderr := getStderr prev id ++ (if p.type = .stderr then p.content else []) }
      else prev k
  | _ => prev

/-- `handleToolResult` from the PRD: remove the entry for `toolCallId`
(object destructuring drops the key and keeps the rest). -/
def handleToolResult (prev : ToolProgressMap) (toolCallId : Str) : ToolProgressMap :=
  fun k => if k = toolCallId then none else prev k

/-- Deliver a sequence of stream events, in order. -/
def deliverAll (m : ToolProgressMap) : List StreamEvent → ToolProgressMap
  | [] => m
  | e :: es => deliverAll (handleStreamEvent m e) es

/-- Concatenated content of the `stdout` progress updates delivered for `id`
by a sequence of stream events, in delivery order. -/
def stdoutDelivered (id : Str) (es : List StreamEvent) : Str :=
  concatAll (es.map fun e =>
    match e with
    | .toolProgress tid p => if tid = id ∧ p.type = .stdout then p.content else []
    | _ => [])

/-- Concatenated content of the `stderr` progress updates delivered for `id`
by a sequence of stream events, in delivery order. -/
def stderrDelivered (id : Str) (es : List StreamEvent) : Str :=
  concatAll (es.map fun e =>
    match e with
    | .toolProgress tid p => if tid = id ∧ p.type = .stderr then p.content else []
    | _ => [])

/-! ## Tool-Call State Registry (spec-modelled) -/

/-- Terminal outcome of a tool call (spec §4.1 / data model). -/
inductive Outcome
  | success
  | error
  | cancelled
  | timeout
deriving DecidableEq

/-- `ToolCallState` from the spec's data model. -/
structure ToolCallState where
  toolCallId : Str
  accumulatedStdout : Str
  accumulatedStderr : Str
  status : Option Str
  startedAt : Nat
  completedAt : Option Nat
  outcome : Option Outcome
deriving DecidableEq

/-- `ProgressUpdate` from the spec's data model. -/
structure ProgressUpdate where
  toolCallId : Str
  kind : ProgressKind
  content : Str
  timestamp : Nat
deriving DecidableEq

/-- Modelled from the spec: the Tool-Call State Registry of §4.3.  No
registry implementation exists under `src/` — the PRD sketches only the
client-side stdout/stderr record (`handleStreamEvent`), with no `status`
field, no `completedAt`/`outcome` and no `begin`/`appendProgress`/`complete`
operations — so the registry store and its protocol warnings are modelled
from the spec's words. -/
structure Registry where
  states : Str → Option ToolCallState
  warnings : List Str

/-- The protocol warning logged for an update addressed to an unregistered
tool call. -/
def unknownToolCallWarning : Str := "unknown toolCallId".toList

/-- Modelled from the spec: `begin(toolCallId)` creates a fresh
`ToolCallState` for the call. -/
def Registry.begin (r : Registry) (id : Str) (now : Nat) : Registry :=
  { r with
    states := fun k =>
      if k = id then some ⟨id, [], [], none, now, none, none⟩ else r.states k }

/-- Modelled from the spec: the per-entry effect of `appendProgress` —
append content to the matching channel accumulator, and update `status`
when `kind = status`. -/
def appendToState (st : ToolCallState) (u : ProgressUpdate) : ToolCallState :=
  match u.kind with
  | .stdout => { st with accumulatedStdout := st.accumulatedStdout ++ u.content }
  | .stderr => { st with accumulatedStderr := st.accumulatedStderr ++ u.content }
  | .status => { st with status := some u.content }

/-- Modelled from the spec: `appendProgress(toolCallId, update)`; an unknown
`toolCallId` is a no-op reported as a protocol warning. -/
def Registry.appendProgress (r : Registry) (id : Str) (u : ProgressUpdate) : Registry :=
  match r.states id with
  | none => { r with warnings := r.warnings ++ [unknownToolCallWarning] }
  | some st =>
      { r with
        states := fun k => if k = id then some (appendToState st u) else r.states k }

/-- Modelled from the spec: `complete(toolCallId, outcome)` marks terminal
state and timestamp; an unknown id is a warning no-op, and a second call for
an already-completed entry is ignored. -/
def Registry.complete (r : Registry) (id : Str) (oc : Outcome) (now : Nat) : Registry :=
  match r.states id with
  | none => { r with warnings := r.warnings ++ [unknownToolCallWarning] }
  | some st =>
      match st.completedAt with
      | some _ => r
      | none =>
          { r with
            states := fun k =>
              if k = id then some { st with completedAt := some now, outcome := some oc }
              else r.states k }

/-! ## Progress Throttler (spec-modelled) -/

/-- Modelled from the spec: per-channel state of the Progress Throttler
(§4.2).  No throttler implementation exists under `src/` — the PRD carries
only the note "batch updates every 100ms or 4KB, whichever comes first" —
so the coalescing state is modelled from the spec's words: the unflushed
content, the time of the last emission, and the emissions so far. -/
structure ThrottlerState where
  unflushed : Str
  lastEmit : Nat
  emitted : List Str
deriving DecidableEq

/-- Modelled from the spec: a fresh throttler for a channel, opened at
`start`, with nothing buffered or emitted. -/
def initThrottler (start : Nat) : ThrottlerState := ⟨[], start, []⟩

/-- Modelled from the spec: feeding one raw chunk to the throttler at time
`now` — emit the coalesced unflushed content when 100 ms have elapsed since
the last emission or 4 KB of unflushed content has accumulated, whichever
comes first; otherwise keep buffering. -/
def throttleFeed (ts : ThrottlerState) (now : Nat) (chunk : Str) : ThrottlerState :=
  let u := ts.unflushed ++ chunk
  if ts.lastEmit + 100 ≤ now ∨ 4096 ≤ u.length then
    { unflushed := [], lastEmit := now, emitted := ts.emitted ++ [u] }
  else
    { ts with unflushed := u }

/-- Feed a timestamped sequence of raw chunks through the throttler. -/
def throttleRun (ts : ThrottlerState) : List (Nat × Str) → ThrottlerState
  | [] => ts
  | (t, c) :: rest => throttleRun (throttleFeed ts t c) rest

/-- Modelled from the spec: on executor completion, flush any remaining
unflushed content as a final emission; the result is the full list of
emissions for the channel. -/
def throttleFinish (ts : ThrottlerState) : List Str :=
  if ts.unflushed = [] then ts.emitted else ts.emitted ++ [ts.unflushed]

/-! ## Executor completion (spec-modelled) -/

/-- How a command execution ended. -/
inductive TerminationCause
  | exited (exitCode : Int)
  | spawnFailure
  | cancelled
  | timedOut
deriving DecidableEq

/-- The final result of `executeCommand`. -/
structure CommandResult where
  exitCode : Option Int
  stdout : Str
  stderr : Str
  durationMs : Nat
  outcome : Outcome
deriving DecidableEq

/-- Modelled from the spec: the completion path of `executeCommand` is
elided in `src/` ("... rest unchanged ..."), so outcome resolution is
modelled from §4.1 and §7: `success` when the process exited on its own
(any exit code), `error` for a spawn failure — returned as a terminal
result, never thrown — and `cancelled` / `timeout` per termination cause;
partial output is retained in every case. -/
def resolveExecution (cause : TerminationCause) (stdoutAcc stderrAcc : Str)
    (dur : Nat) : CommandResult :=
  match cause with
  | .exited code => ⟨some code, stdoutAcc, stderrAcc, dur, .success⟩
  | .spawnFailure => ⟨none, stdoutAcc, stderrAcc, dur, .error⟩
  | .cancelled => ⟨none, stdoutAcc, stderrAcc, dur, .cancelled⟩
  | .timedOut => ⟨none, stdoutAcc, stderrAcc, dur, .timeout⟩

/-! ## Cancellation (abort handler of `executeCommand`) -/

/-- The two signals the abort handler can send. -/
inductive Signal
  | SIGTERM
  | SIGKILL
deriving DecidableEq

/-- A Node `ChildProcess` as seen by the abort handler: whether the process
has exited, the `killed` flag, and the signals delivered so far.  Per Node
semantics, `killed` is set to true when `kill()` successfully sends a signal
to the process — it does not mean the process has exited — and `kill()` on
an exited process fails without setting the flag. -/
structure Child where
  exited : Bool
  killed : Bool
  signalsSent : List Signal
deriving DecidableEq

/-- Node's `subprocess.kill(signal)`: delivering a signal to a live process
records it and sets `killed`; sending to an exited process is a no-op. -/
def Child.kill (c : Child) (s : Signal) : Child :=
  if c.exited then c
  else { c with killed := true, signalsSent := c.signalsSent ++ [s] }

/-- The abort listener body from the PRD: `child.kill('SIGTERM')` and start
of the 5000 ms grace timer. -/
def onAbort (c : Child) : Child := c.kill .SIGTERM

/-- The grace period of the timer started by the abort listener
(`setTimeout(..., 5000)`). -/
def gracePeriodMs : Nat := 5000

/-- The grace-timer callback from the PRD:
`if (!child.killed) child.kill('SIGKILL')`. -/
def onGraceTimer (c : Child) : Child :=
  if c.killed then c else c.kill .SIGKILL

/-- A concrete fresh tool-call state, for witnesses. -/
def sampleToolCallState : ToolCallState := ⟨['a'], [], [], none, 0, none, none⟩

/-- A concrete registry holding exactly the call `"a"`, for witnesses. -/
def sampleRegistry : Registry :=
  ⟨fun k => if k = ['a'] then some sampleToolCallState else none, []⟩

/-! ## Helper lemmas -/

theorem concatAll_append (l1 l2 : List Str) :
    concatAll (l1 ++ l2) = concatAll l1 ++ concatAll l2 := by
  induction l1 with
  | nil => simp [concatAll]
  | cons c cs ih => simp [concatAll, ih]

theorem concatAll_snoc (l : List Str) (a : Str) :
    concatAll (l ++ [a]) = concatAll l ++ a := by
  simp [concatAll_append, concatAll]

theorem onData_of_overflow (mb : Nat) (s : ExecChannelState) (c : Str)
    (h : mb < s.acc.length + c.length) : onData mb s c = s := by
  simp [onData, Nat.not_le.mpr h]

theorem runChunks_concat_events (mb : Nat) (cs : List Str) (s : ExecChannelState)
    (h : concatAll s.events = s.acc) :
    concatAll (runChunks mb s cs).events = (runChunks mb s cs).acc := by
  induction cs generalizing s with
  | nil => simpa [runChunks] using h
  | cons c rest ih =>
      simp only [runChunks]
      apply ih
      unfold onData
      split
      · simp [concatAll_snoc, h]
      · exact h

theorem runChunks_events_sublist (mb : Nat) (cs : List Str) (s : ExecChannelState) :
    ∃ t, (runChunks mb s cs).events = s.events ++ t ∧ t.Sublist cs := by
  induction cs generalizing s with
  | nil => exact ⟨[], by simp [runChunks], List.Sublist.refl []⟩
  | cons c rest ih =>
      simp only [runChunks]
      unfold onData
      split
      · obtain ⟨t, ht, hsub⟩ := ih { acc := s.acc ++ c, events := s.events ++ [c] }
        exact ⟨c :: t, by simpa using ht, List.Sublist.cons₂ c hsub⟩
      · obtain ⟨t, ht, hsub⟩ := ih s
        exact ⟨t, ht, List.Sublist.cons c hsub⟩

theorem runChunks_acc_le (mb : Nat) (cs : List Str) (s : ExecChannelState)
    (h : s.acc.length ≤ mb) : (runChunks mb s cs).acc.length ≤ mb := by
  induction cs generalizing s with
  | nil => simpa [runChunks] using h
  | cons c rest ih =>
      simp only [runChunks]
      apply ih
      unfold onData
      split
      · simpa using by omega
      · exact h

theorem getStdout_handleStreamEvent (m : ToolProgressMap) (e : StreamEvent) (id : Str) :
    getStdout (handleStreamEvent m e) id
      = getStdout m id ++
        (match e with
         | .toolProgress tid p => if tid = id ∧ p.type = .stdout then p.content else []
         | _ => []) := by
  cases e with
  | toolProgress tid p =>
      by_cases h : id = tid
      · subst h
        simp [handleStreamEvent, getStdout]
      · have h2 : ¬tid = id := fun hh => h (Eq.symm hh)
        simp [handleStreamEvent, getStdout, h, h2]
  | textDelta d => simp [handleStreamEvent]
  | toolCallStart i => simp [handleStreamEvent]
  | toolCallArgDelta i d => simp [handleStreamEvent]
  | toolCallArgFinish i => simp [handleStreamEvent]
  | toolResult i => simp [handleStreamEvent]

theorem getStderr_handleStreamEvent (m : ToolProgressMap) (e : StreamEvent) (id : Str) :
    getStderr (handleStreamEvent m e) id
      = getStderr m id ++
        (match e with
         | .toolProgress tid p => if tid = id ∧ p.type = .stderr then p.content else []
         | _ => []) := by
  cases e with
  | toolProgress tid p =>
      by_cases h : id = tid
      · subst h
        simp [handleStreamEvent, getStderr]
      · have h2 : ¬tid = id := fun hh => h (Eq.symm hh)
        simp [handleStreamEvent, getStderr, h, h2]
  | textDelta d => simp [handleStreamEvent]
  | toolCallStart i => simp [handleStreamEvent]
  | toolCallArgDelta i d => simp [handleStreamEvent]
  | toolCallArgFinish i => simp [handleStreamEvent]
  | toolResult i => simp [handleStreamEvent]

theorem getStdout_deliverAll (es : List StreamEvent) (m : ToolProgressMap) (id : Str) :
    getStdout (deliverAll m es) id = getStdout m id ++ stdoutDelivered id es := by
  induction es generalizing m with
  | nil => simp [deliverAll, stdoutDelivered, concatAll]
  | cons e es ih =>
      simp only [deliverAll]
      rw [ih, getStdout_handleStreamEvent]
      simp [stdoutDelivered, concatAll, List.append_assoc]

theorem getStderr_deliverAll (es : List StreamEvent) (m : ToolProgressMap) (id : Str) :
    getStderr (deliverAll m es) id = getStderr m id ++ stderrDelivered id es := by
  induction es generalizing m with
  | nil => simp [deliverAll, stderrDelivered, concatAll]
  | cons e es ih =>
      simp only [deliverAll]
      rw [ih, getStderr_handleStreamEvent]
      simp [stderrDelivered, concatAll, List.append_assoc]

/-! ## Claim theorems -/

/-- C1 counterexample: with `maxBuffer = 1`, the chunk `"a"` fills the
accumulator; when the second chunk `"b"` arrives, the executor emits **no**
progress for it — only one chunk ever reaches the callback, refuting the
claim that the progress stream continues past the `maxBuffer` cap. -/
theorem executeCommand_progress_stops_at_cap_cex :
    (runChunks 1 initChannel [['a'], ['b']]).events = [['a']] ∧
      (runChunks 1 initChannel [['a'], ['b']]).events ≠ [['a'], ['b']] := by
  decide

/-- C1 (amended): in `executeCommand`, the progress callback is invoked
exactly once, with the raw chunk, for each arriving chunk that is stored:
the emitted chunks are, in arrival order, a subsequence of the arriving
chunks, and their concatenation always equals the stored accumulator —
emission is truncated at the `maxBuffer` cap together with the stored final
result, a chunk that would exceed the cap being neither stored nor
emitted. -/
theorem executeCommand_progress_matches_stored_result (mb : Nat) (cs : List Str) :
    concatAll (runChunks mb initChannel cs).events = (runChunks mb initChannel cs).acc ∧
      (runChunks mb initChannel cs).events.Sublist cs := by
  refine ⟨runChunks_concat_events mb cs initChannel rfl, ?_⟩
  obtain ⟨t, ht, hsub⟩ := runChunks_events_sublist mb cs initChannel
  rw [ht]
  simpa [initChannel] using hsub

/-- C10: truncation in `executeCommand` is chunk-atomic — a chunk whose
length added to the accumulator would exceed `maxBuffer` leaves the state
entirely unchanged (no prefix stored, no progress emitted), and consequently
the accumulator's length never exceeds `maxBuffer` over any run. -/
theorem executeCommand_truncation_chunk_atomic (mb : Nat) (s : ExecChannelState)
    (c : Str) (h : mb < s.acc.length + c.length) :
    onData mb s c = s ∧ ∀ cs : List Str, (runChunks mb initChannel cs).acc.length ≤ mb :=
  ⟨onData_of_overflow mb s c h,
   fun cs => runChunks_acc_le mb cs initChannel (Nat.zero_le mb)⟩

/-- Witness for C10 at `maxBuffer = 1`, accumulator `"a"`, chunk `"bc"`. -/
theorem executeCommand_truncation_chunk_atomic_witness :
    onData 1 ⟨['a'], [['a']]⟩ ['b', 'c'] = ⟨['a'], [['a']]⟩ ∧
      (runChunks 1 initChannel [['x'], ['y']]).acc.length ≤ 1 :=
  ⟨(executeCommand_truncation_chunk_atomic 1 ⟨['a'], [['a']]⟩ ['b', 'c'] (by decide)).1,
   (executeCommand_truncation_chunk_atomic 1 ⟨['a'], [['a']]⟩ ['b', 'c'] (by decide)).2
     [['x'], ['y']]⟩

/-- C2: after any sequence of delivered stream events, the accumulated
stdout held in per-call state equals the concatenation, in delivery order,
of the content of the `stdout` progress updates delivered for that call,
and likewise for stderr. -/
theorem toolProgress_accumulates_delivered_content (es : List StreamEvent) (id : Str) :
    getStdout (deliverAll emptyProgressMap es) id = stdoutDelivered id es ∧
      getStderr (deliverAll emptyProgressMap es) id = stderrDelivered id es := by
  constructor
  · rw [getStdout_deliverAll]
    simp [getStdout, emptyProgressMap]
  · rw [getStderr_deliverAll]
    simp [getStderr, emptyProgressMap]

/-- C9: tool calls are isolated — a progress event for one `toolCallId` and
a terminal result for one `toolCallId` leave the entry of every other id
unchanged, while the addressed call's own channels are extended append-only
(per-channel emission order preserved). -/
theorem toolCall_isolation (m : ToolProgressMap) (tid rid other : Str)
    (p : ToolProgressUpdate) (h1 : other ≠ tid) (h2 : other ≠ rid) :
    handleStreamEvent m (.toolProgress tid p) other = m other ∧
      handleToolResult m rid other = m other ∧
      getStdout (handleStreamEvent m (.toolProgress tid p)) tid
        = getStdout m tid ++ (if p.type = .stdout then p.content else []) ∧
      getStderr (handleStreamEvent m (.toolProgress tid p)) tid
        = getStderr m tid ++ (if p.type = .stderr then p.content else []) := by
  refine ⟨by simp [handleStreamEvent, h1], by simp [handleToolResult, h2], ?_, ?_⟩
  · rw [getStdout_handleStreamEvent]
    simp
  · rw [getStderr_handleStreamEvent]
    simp

/-- Witness for C9 with two distinct concurrent calls `"a"`, `"b"` and an
observer id `"c"`. -/
theorem toolCall_isolation_witness :
    handleStreamEvent emptyProgressMap (.toolProgress ['a'] ⟨.stdout, ['x']⟩) ['c']
        = emptyProgressMap ['c'] ∧
      handleToolResult emptyProgressMap ['b'] ['c'] = emptyProgressMap ['c'] ∧
      getStdout (handleStreamEvent emptyProgressMap (.toolProgress ['a'] ⟨.stdout, ['x']⟩)) ['a']
        = getStdout emptyProgressMap ['a'] ++
            (if (⟨.stdout, ['x']⟩ : ToolProgressUpdate).type = .stdout then ['x'] else []) ∧
      getStderr (handleStreamEvent emptyProgressMap (.toolProgress ['a'] ⟨.stdout, ['x']⟩)) ['a']
        = getStderr emptyProgressMap ['a'] ++
            (if (⟨.stdout, ['x']⟩ : ToolProgressUpdate).type = .stderr then ['x'] else []) :=
  toolCall_isolation emptyProgressMap ['a'] ['b'] ['c'] ⟨.stdout, ['x']⟩
    (by decide) (by decide)

theorem snoc_ne_self (l : List Str) (a : Str) : l ++ [a] ≠ l := by
  intro h
  have hl := congrArg List.length h
  simp at hl

theorem concatAll_throttleFinish (ts : ThrottlerState) :
    concatAll (throttleFinish ts) = concatAll ts.emitted ++ ts.unflushed := by
  unfold throttleFinish
  split
  · simp [*]
  · simp [concatAll_snoc]

theorem throttleRun_content (inputs : List (Nat × Str)) (ts : ThrottlerState) :
    concatAll (throttleFinish (throttleRun ts inputs))
      = concatAll ts.emitted ++ (ts.unflushed ++ concatAll (inputs.map Prod.snd)) := by
  induction inputs generalizing ts with
  | nil => simp [throttleRun, concatAll_throttleFinish, concatAll]
  | cons pc rest ih =>
      obtain ⟨t, c⟩ := pc
      simp only [throttleRun]
      rw [ih]
      simp only [throttleFeed]
      split
      · simp [concatAll_snoc, concatAll, List.append_assoc]
      · simp [concatAll, List.append_assoc]

/-- C3: `appendProgress` on a registered `toolCallId` stores an entry whose
stdout accumulator gained the content exactly when the update kind is
`stdout`, whose stderr accumulator gained it exactly when the kind is
`stderr`, and whose `status` field is replaced by the content exactly when
the kind is `status`. -/
theorem registry_appendProgress_known (r : Registry) (id : Str) (u : ProgressUpdate)
    (st : ToolCallState) (h : r.states id = some st) :
    ∃ st2, (r.appendProgress id u).states id = some st2 ∧
      st2.accumulatedStdout
        = st.accumulatedStdout ++ (if u.kind = .stdout then u.content else []) ∧
      st2.accumulatedStderr
        = st.accumulatedStderr ++ (if u.kind = .stderr then u.content else []) ∧
      st2.status = (if u.kind = .status then some u.content else st.status) := by
  refine ⟨appendToState st u, ?_, ?_, ?_, ?_⟩
  · simp [Registry.appendProgress, h]
  · cases hk : u.kind <;> simp [appendToState, hk]
  · cases hk : u.kind <;> simp [appendToState, hk]
  · cases hk : u.kind <;> simp [appendToState, hk]

/-- Witness for C3: a `stdout` update of content `"x"` applied to the
registered call `"a"`. -/
theorem registry_appendProgress_known_witness :
    ∃ st2,
      (sampleRegistry.appendProgress ['a'] ⟨['a'], .stdout, ['x'], 7⟩).states ['a']
          = some st2 ∧
        st2.accumulatedStdout
          = sampleToolCallState.accumulatedStdout ++
              (if (⟨['a'], .stdout, ['x'], 7⟩ : ProgressUpdate).kind = .stdout
               then ['x'] else []) ∧
        st2.accumulatedStderr
          = sampleToolCallState.accumulatedStderr ++
              (if (⟨['a'], .stdout, ['x'], 7⟩ : ProgressUpdate).kind = .stderr
               then ['x'] else []) ∧
        st2.status
          = (if (⟨['a'], .stdout, ['x'], 7⟩ : ProgressUpdate).kind = .status
             then some ['x'] else sampleToolCallState.status) :=
  registry_appendProgress_known sampleRegistry ['a'] ⟨['a'], .stdout, ['x'], 7⟩
    sampleToolCallState (by decide)

/-- C4: `appendProgress` and `complete` addressed to an unregistered
`toolCallId` leave the state store entirely unchanged — no entry is created
or modified — and only record a protocol warning. -/
theorem registry_unknown_id_noop (r : Registry) (id : Str) (u : ProgressUpdate)
    (oc : Outcome) (now : Nat) (h : r.states id = none) :
    (r.appendProgress id u).states = r.states ∧
      (r.complete id oc now).states = r.states ∧
      (r.appendProgress id u).warnings = r.warnings ++ [unknownToolCallWarning] ∧
      (r.complete id oc now).warnings = r.warnings ++ [unknownToolCallWarning] := by
  refine ⟨?_, ?_, ?_, ?_⟩ <;> simp [Registry.appendProgress, Registry.complete, h]

/-- Witness for C4: an update and a completion for the unregistered call
`"z"` against a registry holding only `"a"`. -/
theorem registry_unknown_id_noop_witness :
    (sampleRegistry.appendProgress ['z'] ⟨['z'], .stdout, ['x'], 7⟩).states
        = sampleRegistry.states ∧
      (sampleRegistry.complete ['z'] .success 9).states = sampleRegistry.states ∧
      (sampleRegistry.appendProgress ['z'] ⟨['z'], .stdout, ['x'], 7⟩).warnings
        = sampleRegistry.warnings ++ [unknownToolCallWarning] ∧
      (sampleRegistry.complete ['z'] .success 9).warnings
        = sampleRegistry.warnings ++ [unknownToolCallWarning] :=
  registry_unknown_id_noop sampleRegistry ['z'] ⟨['z'], .stdout, ['x'], 7⟩
    .success 9 (by decide)

/-- C5: `complete` is idempotent for a registered call — a second `complete`
for the same `toolCallId`, with any outcome and timestamp, returns the
registry unchanged, so `completedAt` and `outcome` keep the values set by
the first call. -/
theorem registry_complete_idempotent (r : Registry) (id : Str) (oc oc2 : Outcome)
    (t t2 : Nat) (st : ToolCallState) (h : r.states id = some st) :
    (r.complete id oc t).complete id oc2 t2 = r.complete id oc t := by
  cases hc : st.completedAt with
  | some x =>
      have h1 : r.complete id oc t = r := by
        simp [Registry.complete, h, hc]
      rw [h1]
      simp [Registry.complete, h, hc]
  | none =>
      have h1 : (r.complete id oc t).states id
          = some { st with completedAt := some t, outcome := some oc } := by
        simp [Registry.complete, h, hc]
      generalize hr1 : r.complete id oc t = r1 at h1 ⊢
      unfold Registry.complete
      rw [h1]

/-- Witness for C5: completing the fresh call `"a"` twice, with different
outcomes and timestamps. -/
theorem registry_complete_idempotent_witness :
    (sampleRegistry.complete ['a'] .success 3).complete ['a'] .cancelled 8
      = sampleRegistry.complete ['a'] .success 3 :=
  registry_complete_idempotent sampleRegistry ['a'] .success .cancelled 3 8
    sampleToolCallState (by decide)

/-- C7 (spec-modelled): the throttler emits a coalesced update exactly when
100 ms have elapsed since the channel's last emission or 4 KB of unflushed
content has accumulated, whichever comes first; and, with the final flush on
executor completion, the concatenation of all emissions equals the
concatenation of all raw chunks fed in — no content is ever lost, even for
commands completing before any throttle window elapses. -/
theorem throttler_emits_on_window_and_loses_nothing (start now : Nat)
    (inputs : List (Nat × Str)) (ts : ThrottlerState) (chunk : Str) :
    concatAll (throttleFinish (throttleRun (initThrottler start) inputs))
        = concatAll (inputs.map Prod.snd) ∧
      ((throttleFeed ts now chunk).emitted ≠ ts.emitted ↔
        (ts.lastEmit + 100 ≤ now ∨ 4096 ≤ ts.unflushed.length + chunk.length)) := by
  constructor
  · rw [throttleRun_content]
    simp [initThrottler, concatAll]
  · by_cases hcond : ts.lastEmit + 100 ≤ now ∨ 4096 ≤ ts.unflushed.length + chunk.length
    · have hne := snoc_ne_self ts.emitted (ts.unflushed ++ chunk)
      simp only [throttleFeed, List.length_append]
      rw [if_pos hcond]
      simp [hne, hcond]
    · simp only [throttleFeed, List.length_append]
      rw [if_neg hcond]
      simp [hcond]

/-- C8 (spec-modelled): the executor resolves with outcome `success` exactly
when the process exited on its own (any exit code, non-zero included),
`error` exactly for a spawn failure — surfaced as a terminal result value,
never thrown — and `cancelled` / `timeout` exactly per termination cause;
partial output is retained in every case. -/
theorem executor_outcome_by_cause (cause : TerminationCause) (so se : Str) (d : Nat) :
    ((resolveExecution cause so se d).outcome = .success ↔ ∃ c, cause = .exited c) ∧
      ((resolveExecution cause so se d).outcome = .error ↔ cause = .spawnFailure) ∧
      ((resolveExecution cause so se d).outcome = .cancelled ↔ cause = .cancelled) ∧
      ((resolveExecution cause so se d).outcome = .timeout ↔ cause = .timedOut) ∧
      (resolveExecution cause so se d).stdout = so ∧
      (resolveExecution cause so se d).stderr = se := by
  cases cause <;> simp [resolveExecution]

/-- C6 (code bug): a child that is alive at cancellation and still alive
when the 5000 ms grace timer fires receives only `SIGTERM` — the forced
`SIGKILL` is never sent, because the successful `SIGTERM` send already set
Node's `killed` flag which the timer callback `if (!child.killed)` tests —
contradicting the claimed escalation protocol. -/
theorem cancellation_escalation_never_fires :
    gracePeriodMs = 5000 ∧
      (onGraceTimer (onAbort ⟨false, false, []⟩)).exited = false ∧
      (onGraceTimer (onAbort ⟨false, false, []⟩)).signalsSent = [Signal.SIGTERM] := by
  decide
